import Mathlib

/-!
Verification of the motion-stabilization core of `react-native-video`
(`RCTMotionManager`): gravity smoothing, lock-state quantization, the
lock/unlock state machine, the spring unlock animation and the transform
builder.  Definitions are a shallow embedding of the Objective-C source;
machine doubles are modelled as real numbers, the two cooperative tick
sources (sensor updates and the animation display link) as an explicit
event-step function on the manager's state.
-/

open Real

/-- The three lock states of `RCTMotionManagerState` (source lines 361-365). -/
inductive RCTMotionManagerState
  | Free
  | Locked
  | Unlocking
deriving DecidableEq, Repr

/-- `kMaxLockAngle` (source line 358): 12 degrees clockwise. -/
def kMaxLockAngle : ℝ := -0.209

/-- `kMinLockAngle` (source line 359): 12 degrees counter-clockwise. -/
def kMinLockAngle : ℝ := -6.074

/-- `midLockAngle` (source line 470), the static midpoint of the lock band. -/
noncomputable def midLockAngle : ℝ := (kMinLockAngle + kMaxLockAngle) / 2

/-- `minDecay` (source line 420). -/
def minDecay : ℝ := 0.15

/-- C's `atan2(y, x)`: the angle of the point `(x, y)`, in `(-π, π]`,
modelled as the complex argument of `x + y·i`. -/
noncomputable def atan2 (y x : ℝ) : ℝ := Complex.arg ⟨x, y⟩

/-- `+rotationWithLockState:rawRotation:` (source lines 469-479): when locked,
raw angles in the lower half of the lock band snap to `kMinLockAngle`, the
upper half snaps to `kMaxLockAngle`, anything else (and any state other than
`Locked`) passes through. -/
noncomputable def rotationWithLockState
    (lockState : RCTMotionManagerState) (rawRotaton : ℝ) : ℝ :=
  if lockState = .Locked then
    if rawRotaton > kMinLockAngle ∧ rawRotaton ≤ midLockAngle then kMinLockAngle
    else if rawRotaton > midLockAngle ∧ rawRotaton < kMaxLockAngle then kMaxLockAngle
    else rawRotaton
  else rawRotaton

/-- `-isFlatWithGravity:` (source lines 412-414). -/
def isFlatWithGravity (gx gy : ℝ) : Prop := |gx| < 0.2 ∧ |gy| < 0.2

noncomputable instance (gx gy : ℝ) : Decidable (isFlatWithGravity gx gy) :=
  decidable_of_iff (|gx| < 0.2 ∧ |gy| < 0.2) Iff.rfl

/-- The adaptive decay factor of the gravity smoother
(source line 435): `decay = minDecay + fabs(gravity.x) * (1 - minDecay)`. -/
def decayFor (gx : ℝ) : ℝ := minDecay + |gx| * (1 - minDecay)

/-- `-springAnimationFactorWithTimeElapsed:` (source lines 519-521):
`-exp2(-6t)/2 * (-2*exp2(6t) + sin(12t) + 2*cos(12t))`. -/
noncomputable def springAnimationFactorWithTimeElapsed (timeElapsed : ℝ) : ℝ :=
  -(2 : ℝ) ^ (-6.0 * timeElapsed) / 2.0 *
    (-2.0 * (2 : ℝ) ^ (6.0 * timeElapsed) +
      Real.sin (12.0 * timeElapsed) + 2.0 * Real.cos (12.0 * timeElapsed))

/-- The diagnostics normalization of the displayed rotation to degrees in
`[0, 360)` (source lines 445-450). -/
noncomputable def normalizedDisplayRotationDegrees (displayRotation : ℝ) : ℝ :=
  if displayRotation < 0 then (displayRotation + 2 * Real.pi) / Real.pi * 180.0
  else displayRotation / Real.pi * 180.0

/-- The mutable state of an `RCTMotionManager` once
`startDeviceMotionUpdatesWithHandler:` has run: the lock state and the
unlock-capture ivars (source lines 376-380), the `__block` smoother memory
`lastX`/`lastY` of the handler closure (source lines 418-419), whether the
`CADisplayLink` animation sampler is live (not yet invalidated), and whether
the `CMMotionManager` is still delivering sensor updates (set to `false` by
`stopDeviceMotionUpdates`). -/
structure MotionState where
  lockState : RCTMotionManagerState
  lastX : ℝ
  lastY : ℝ
  initialRotationWhenUnlocking : ℝ
  rotationDeltaForUnlocking : ℝ
  samplerLive : Bool
  sensorActive : Bool


/-- The events of the single cooperative queue: a gravity sensor tick
(the handler block, source lines 422-456), the `lock` / `unLock` control
calls, an animation display-link tick `sampleAnimator:` carrying its
elapsed time since `unLock`, and `stopDeviceMotionUpdates`. -/
inductive MotionEvent
  | sensorTick (gx gy : ℝ)
  | lock
  | unLock
  | animTick (timeElapsed : ℝ)
  | stop

/-- The observable result of one event: the successor state, the rotation
handed to the updates handler via `transformWithRotation:` (if the handler
was invoked on this tick), and the degree value recorded to the frameless
counter (if any). -/
structure StepOut where
  state : MotionState
  emit : Option ℝ
  record : Option ℝ


/-- One step of the cooperative event loop of `RCTMotionManager`, straight
from the source: the sensor handler (lines 422-456) returns early while
`Unlocking`, drops flat samples, otherwise smooths, computes
`rawRotation = atan2(lastX, lastY) - π`, quantizes, stores the
unlock-capture ivars, records diagnostics and emits; `lock` (481-483) and
`unLock` (485-492) just write state; `sampleAnimator:` (500-512) emits the
sprung rotation and on `timeElapsed > 1.0` invalidates itself and frees the
state; `stopDeviceMotionUpdates` (463-465) only stops sensor delivery. -/
noncomputable def step (st : MotionState) (e : MotionEvent) : StepOut :=
  match e with
  | .sensorTick gx gy =>
    if st.sensorActive = false then ⟨st, none, none⟩
    else if st.lockState = .Unlocking then
      -- Unlocking animation is going on, don't use sensor's input
      ⟨st, none, none⟩
    else if isFlatWithGravity gx gy then ⟨st, none, none⟩
    else
      let decay := decayFor gx
      let lastX := gx * decay + st.lastX * (1 - decay)
      let lastY := gy * decay + st.lastY * (1 - decay)
      let rawRotation := atan2 lastX lastY - Real.pi
      let displayRotation := rotationWithLockState st.lockState rawRotation
      ⟨{ st with
          lastX := lastX
          lastY := lastY
          initialRotationWhenUnlocking := displayRotation
          rotationDeltaForUnlocking := rawRotation - displayRotation },
        some displayRotation,
        some (normalizedDisplayRotationDegrees displayRotation)⟩
  | .lock => ⟨{ st with lockState := .Locked }, none, none⟩
  | .unLock =>
    -- starts the CADisplayLink animation sampler
    ⟨{ st with lockState := .Unlocking, samplerLive := true }, none, none⟩
  | .animTick timeElapsed =>
    if st.samplerLive = false then ⟨st, none, none⟩
    else
      let factor := springAnimationFactorWithTimeElapsed timeElapsed
      let rotation := st.initialRotationWhenUnlocking +
        st.rotationDeltaForUnlocking * factor
      if timeElapsed > 1.0 then
        ⟨{ st with samplerLive := false, lockState := .Free }, some rotation, none⟩
      else
        ⟨st, some rotation, none⟩
  | .stop => ⟨{ st with sensorActive := false }, none, none⟩

/-- The state right after `init` plus `startDeviceMotionUpdatesWithHandler:`:
ivars are zero-initialized, the lock state is `Free` (enum value 0), the
smoother memory starts at the `-1` sentinel (source lines 418-419), no
animation sampler exists yet, and sensor updates are being delivered. -/
def initState : MotionState :=
  { lockState := .Free
    lastX := -1
    lastY := -1
    initialRotationWhenUnlocking := 0
    rotationDeltaForUnlocking := 0
    samplerLive := false
    sensorActive := true }

/-- A concrete manager state in the middle of an unlock window: the state is
`Unlocking`, the animation sampler is live, sensor updates are still being
delivered, and the smoother memory holds `(5, 7)`. -/
def unlockingState : MotionState :=
  { lockState := .Unlocking
    lastX := 5
    lastY := 7
    initialRotationWhenUnlocking := 1
    rotationDeltaForUnlocking := 2
    samplerLive := true
    sensorActive := true }

/-- The affine transform built by `-transformWithRotation:` (source lines
400-410): a uniform scale from the external oval-fit calculator followed by
a rotation. -/
structure CGAffineTransform where
  scaleX : ℝ
  scaleY : ℝ
  rotation : ℝ


/-- `-transformWithRotation:` (source lines 400-410), parametrized by the
external `OvalCalculator.get_scale` collaborator.  The source method has no
error path at all — it unconditionally asks the calculator for a scale and
builds the transform; the `Option` result type exists purely so that the
spec's claimed "fail fast with a reported error" outcome is expressible
(it would be `none`), and the embedding is faithfully the constant `some`. -/
def transformWithRotation (get_scale : ℝ → ℝ → ℝ → ℝ → ℝ → ℝ)
    (viewWidth viewHeight videoWidth videoHeight rotation : ℝ) :
    Option CGAffineTransform :=
  let scale := get_scale viewWidth viewHeight videoWidth videoHeight rotation
  some { scaleX := scale, scaleY := scale, rotation := rotation }

/-- The raw rotation the sensor handler computes on a (delivered, non-flat,
non-unlocking) tick (source lines 435-440): the smoothed gravity pair fed to
`atan2(lastX, lastY) - π`. -/
noncomputable def rawRotationAfter (st : MotionState) (gx gy : ℝ) : ℝ :=
  atan2 (gx * decayFor gx + st.lastX * (1 - decayFor gx))
        (gy * decayFor gx + st.lastY * (1 - decayFor gx)) - Real.pi

/-- A run of the cooperative event loop: folding `step` over a list of
events from a start state.  The reachable states of an `RCTMotionManager`
are exactly `run initState evs` for some event list. -/
noncomputable def run (st : MotionState) (evs : List MotionEvent) : MotionState :=
  evs.foldl (fun s e => (step s e).state) st

/-- Invariant of the unlock-capture ivars on reachable states: the captured
initial rotation lies in `(-2π, 0]`, and the captured delta is either `0`
(displayed = raw), or positive and at most the lower half-band width with
the initial rotation snapped to `kMinLockAngle`, or negative and greater
than the (negative) upper half-band width with the initial rotation snapped
to `kMaxLockAngle` — exactly the three outcomes of the quantizer on a raw
rotation in `(-2π, 0]`. -/
def CaptureInv (st : MotionState) : Prop :=
  (-(2 * Real.pi) < st.initialRotationWhenUnlocking ∧
    st.initialRotationWhenUnlocking ≤ 0) ∧
  (st.rotationDeltaForUnlocking = 0 ∨
    (st.initialRotationWhenUnlocking = kMinLockAngle ∧
      0 < st.rotationDeltaForUnlocking ∧
      st.rotationDeltaForUnlocking ≤ midLockAngle - kMinLockAngle) ∨
    (st.initialRotationWhenUnlocking = kMaxLockAngle ∧
      midLockAngle - kMaxLockAngle < st.rotationDeltaForUnlocking ∧
      st.rotationDeltaForUnlocking < 0))

/-! ## Helper lemmas -/

/-- The equation of a processed sensor tick: when updates are being
delivered, the state is not `Unlocking` and the sample is not flat, one
sensor tick performs exactly the smoothing update, the capture of the
displayed/raw pair, the diagnostics record and the emission. -/
theorem step_sensorTick_eq (st : MotionState) (gx gy : ℝ)
    (hact : st.sensorActive = true) (hnot : st.lockState ≠ .Unlocking)
    (hflat : ¬ isFlatWithGravity gx gy) :
    step st (.sensorTick gx gy)
      = ⟨{ st with
            lastX := gx * decayFor gx + st.lastX * (1 - decayFor gx)
            lastY := gy * decayFor gx + st.lastY * (1 - decayFor gx)
            initialRotationWhenUnlocking :=
              rotationWithLockState st.lockState (rawRotationAfter st gx gy)
            rotationDeltaForUnlocking :=
              rawRotationAfter st gx gy
                - rotationWithLockState st.lockState (rawRotationAfter st gx gy) },
          some (rotationWithLockState st.lockState (rawRotationAfter st gx gy)),
          some (normalizedDisplayRotationDegrees
            (rotationWithLockState st.lockState (rawRotationAfter st gx gy)))⟩ := by
  simp only [step, hact, hnot, hflat, rawRotationAfter]
  split_ifs <;> simp_all

/-- The raw rotation `atan2(lastX, lastY) - π` always lies in `(-2π, 0]`,
because the complex argument lies in `(-π, π]`. -/
theorem atan2_sub_pi_range (y x : ℝ) :
    -(2 * Real.pi) < atan2 y x - Real.pi ∧ atan2 y x - Real.pi ≤ 0 := by
  unfold atan2
  constructor
  · have h := Complex.neg_pi_lt_arg (⟨x, y⟩ : ℂ)
    linarith
  · have h := Complex.arg_le_pi (⟨x, y⟩ : ℂ)
    linarith

/-- The quantizer maps `(-2π, 0]` into `(-2π, 0]`: both lock constants lie
in that interval and everything else passes through. -/
theorem rotationWithLockState_range (s : RCTMotionManagerState) (raw : ℝ)
    (h1 : -(2 * Real.pi) < raw) (h2 : raw ≤ 0) :
    -(2 * Real.pi) < rotationWithLockState s raw ∧
      rotationWithLockState s raw ≤ 0 := by
  have hpi := Real.pi_gt_d2
  unfold rotationWithLockState
  split_ifs
  · constructor
    · rw [kMinLockAngle]
      nlinarith
    · rw [kMinLockAngle]
      norm_num
  · constructor
    · rw [kMaxLockAngle]
      nlinarith
    · rw [kMaxLockAngle]
      norm_num
  · exact ⟨h1, h2⟩
  · exact ⟨h1, h2⟩

/-- The spring factor minus one is the decaying oscillation
`2^(-6t)·(sin 12t + 2 cos 12t)/2`. -/
theorem springFactor_identity (t : ℝ) :
    springAnimationFactorWithTimeElapsed t
      = 1 - (2:ℝ) ^ (-6.0 * t)
          * (Real.sin (12.0 * t) + 2.0 * Real.cos (12.0 * t)) / 2 := by
  have h2pos : (0:ℝ) < 2 := by norm_num
  have hmul : (2:ℝ) ^ (-6.0 * t) * (2:ℝ) ^ (6.0 * t) = 1 := by
    rw [← Real.rpow_add h2pos]
    norm_num
  simp only [springAnimationFactorWithTimeElapsed]
  linear_combination hmul

/-- Amplitude bound: `|sin x + 2 cos x| ≤ √5 ≤ 2.2362`. -/
theorem sin_add_two_cos_le (x : ℝ) :
    -(2.2362 : ℝ) ≤ Real.sin x + 2 * Real.cos x ∧
      Real.sin x + 2 * Real.cos x ≤ 2.2362 := by
  have hsq : (Real.sin x + 2 * Real.cos x) ^ 2 ≤ 5 := by
    nlinarith [sq_nonneg (2 * Real.sin x - Real.cos x), Real.sin_sq_add_cos_sq x]
  constructor <;> nlinarith [hsq]

/-- For `t ≥ 1/8` the decay has fallen to `2^(-6t) ≤ 2^(-3/4) ≤ 3/5`. -/
theorem rpow_decay_le_of_eighth (t : ℝ) (ht : 1/8 ≤ t) :
    (2:ℝ) ^ (-6.0 * t) ≤ 3/5 := by
  have h1 : (2:ℝ) ^ (-6.0 * t) ≤ (2:ℝ) ^ (-(3:ℝ)/4) :=
    Real.rpow_le_rpow_of_exponent_le (by norm_num) (by nlinarith)
  have hA_pos : (0:ℝ) < (2:ℝ) ^ (-(3:ℝ)/4) := Real.rpow_pos_of_pos (by norm_num) _
  have hA4 : ((2:ℝ) ^ (-(3:ℝ)/4)) ^ (4:ℕ) = 1/8 := by
    have h2 : ((2:ℝ) ^ (-(3:ℝ)/4)) ^ (4:ℕ) = (2:ℝ) ^ ((-(3:ℝ)/4) * ((4:ℕ):ℝ)) := by
      rw [← Real.rpow_natCast ((2:ℝ) ^ (-(3:ℝ)/4)) 4,
        ← Real.rpow_mul (by norm_num : (0:ℝ) ≤ 2)]
    rw [h2, show ((-(3:ℝ)/4) * ((4:ℕ):ℝ)) = ((-3:ℤ):ℝ) by push_cast; ring,
      Real.rpow_intCast]
    norm_num
  have hA_le : (2:ℝ) ^ (-(3:ℝ)/4) ≤ 3/5 := by
    by_contra hgt
    push_neg at hgt
    have h4 : ((3:ℝ)/5) ^ (4:ℕ) < ((2:ℝ) ^ (-(3:ℝ)/4)) ^ (4:ℕ) :=
      pow_lt_pow_left₀ hgt (by norm_num) (by norm_num)
    rw [hA4] at h4
    norm_num at h4
  linarith

/-- For `t ≥ 1/24` the decay has fallen to `2^(-6t) ≤ 2^(-1/4) ≤ 0.841`. -/
theorem rpow_decay_le_of_24th (t : ℝ) (ht : 1/24 ≤ t) :
    (2:ℝ) ^ (-6.0 * t) ≤ 0.841 := by
  have h1 : (2:ℝ) ^ (-6.0 * t) ≤ (2:ℝ) ^ (-(1:ℝ)/4) :=
    Real.rpow_le_rpow_of_exponent_le (by norm_num) (by nlinarith)
  have hA_pos : (0:ℝ) < (2:ℝ) ^ (-(1:ℝ)/4) := Real.rpow_pos_of_pos (by norm_num) _
  have hA4 : ((2:ℝ) ^ (-(1:ℝ)/4)) ^ (4:ℕ) = 1/2 := by
    have h2 : ((2:ℝ) ^ (-(1:ℝ)/4)) ^ (4:ℕ) = (2:ℝ) ^ ((-(1:ℝ)/4) * ((4:ℕ):ℝ)) := by
      rw [← Real.rpow_natCast ((2:ℝ) ^ (-(1:ℝ)/4)) 4,
        ← Real.rpow_mul (by norm_num : (0:ℝ) ≤ 2)]
    rw [h2, show ((-(1:ℝ)/4) * ((4:ℕ):ℝ)) = ((-1:ℤ):ℝ) by push_cast; ring,
      Real.rpow_intCast]
    norm_num
  have hA_le : (2:ℝ) ^ (-(1:ℝ)/4) ≤ 0.841 := by
    by_contra hgt
    push_neg at hgt
    have h4 : ((0.841:ℝ)) ^ (4:ℕ) < ((2:ℝ) ^ (-(1:ℝ)/4)) ^ (4:ℕ) :=
      pow_lt_pow_left₀ hgt (by norm_num) (by norm_num)
    rw [hA4] at h4
    norm_num at h4
  linarith

/-- For `t ≥ 0`, `2^(-6t)·(1 + 4.158 t) ≤ 1` — the exponential decay beats
the linear growth, since `6·log 2 > 4.158`. -/
theorem rpow_decay_mul_le (t : ℝ) (ht : 0 ≤ t) :
    (2:ℝ) ^ (-6.0 * t) * (1 + 4.158 * t) ≤ 1 := by
  have hlog := Real.log_two_gt_d9
  have hexp : 1 + 6 * Real.log 2 * t ≤ Real.exp (6 * Real.log 2 * t) := by
    linarith [Real.add_one_le_exp (6 * Real.log 2 * t)]
  have hrw : (2:ℝ) ^ (-6.0 * t) = (Real.exp (6 * Real.log 2 * t))⁻¹ := by
    rw [Real.rpow_def_of_pos (by norm_num : (0:ℝ) < 2), ← Real.exp_neg]
    congr 1
    ring
  have hpos : (0:ℝ) < 1 + 4.158 * t := by nlinarith
  have h2 : (Real.exp (6 * Real.log 2 * t))⁻¹ ≤ (1 + 4.158 * t)⁻¹ := by
    apply inv_anti₀ hpos
    nlinarith [hexp, hlog]
  rw [hrw]
  calc (Real.exp (6 * Real.log 2 * t))⁻¹ * (1 + 4.158 * t)
      ≤ (1 + 4.158 * t)⁻¹ * (1 + 4.158 * t) :=
        mul_le_mul_of_nonneg_right h2 hpos.le
    _ = 1 := inv_mul_cancel₀ hpos.ne'

/-- Global upper bound on the spring factor for nonnegative elapsed time:
`f(t) ≤ 1.7` (for `t ≤ 1/8` the oscillation term is still nonnegative so
`f ≤ 1`; afterwards the decay is below `3/5` and the amplitude below
`2.2362`). -/
theorem springFactor_upper (t : ℝ) (ht : 0 ≤ t) :
    springAnimationFactorWithTimeElapsed t ≤ 1.7 := by
  have hid := springFactor_identity t
  have hA_pos : (0:ℝ) < (2:ℝ) ^ (-6.0 * t) := Real.rpow_pos_of_pos (by norm_num) _
  rcases le_or_lt t (1/8) with hc | hc
  · have hx0 : (0:ℝ) ≤ 12.0 * t := by nlinarith
    have hxpi : 12.0 * t ≤ Real.pi := by nlinarith [Real.pi_gt_three]
    have hsin : 0 ≤ Real.sin (12.0 * t) := Real.sin_nonneg_of_nonneg_of_le_pi hx0 hxpi
    have hcos : 0 ≤ Real.cos (12.0 * t) := by
      apply Real.cos_nonneg_of_mem_Icc
      constructor
      · nlinarith [Real.pi_gt_three]
      · nlinarith [Real.pi_gt_three]
    nlinarith [hid, mul_nonneg hA_pos.le
      (by linarith : (0:ℝ) ≤ Real.sin (12.0 * t) + 2.0 * Real.cos (12.0 * t))]
  · have hS := sin_add_two_cos_le (12.0 * t)
    have hA_le : (2:ℝ) ^ (-6.0 * t) ≤ 3/5 := rpow_decay_le_of_eighth t hc.le
    nlinarith [hid, hS.1, hS.2, hA_pos.le, hA_le,
      mul_nonneg hA_pos.le
        (by linarith [hS.1] : (0:ℝ) ≤ Real.sin (12.0 * t) + 2 * Real.cos (12.0 * t) + 2.2362)]

/-- Global lower bound on the spring factor for nonnegative elapsed time:
`f(t) ≥ -0.0712` (the deepest early dip of the curve is above this; proved
by comparing the decay against `1/(1 + 4.158 t)` on `[0, 1/24]`, against
`2^(-1/4)` on `[1/24, 1/8]` and against `2^(-3/4)` beyond). -/
theorem springFactor_lower (t : ℝ) (ht : 0 ≤ t) :
    -(0.0712 : ℝ) ≤ springAnimationFactorWithTimeElapsed t := by
  have hid := springFactor_identity t
  have hA_pos : (0:ℝ) < (2:ℝ) ^ (-6.0 * t) := Real.rpow_pos_of_pos (by norm_num) _
  rcases le_or_lt t (1/24) with hc | hc
  · have hsin_le : Real.sin (12.0 * t) ≤ 12.0 * t := by
      rcases eq_or_lt_of_le ht with h0 | hpos
      · rw [← h0]
        norm_num
      · exact (Real.sin_lt (by nlinarith)).le
    have hcos_le : Real.cos (12.0 * t) ≤ 1 := Real.cos_le_one _
    have hmul := rpow_decay_mul_le t ht
    have hS_le : Real.sin (12.0 * t) + 2.0 * Real.cos (12.0 * t)
        ≤ 2 + 12.0 * t := by linarith
    have h1 : (2:ℝ) ^ (-6.0 * t)
          * (Real.sin (12.0 * t) + 2.0 * Real.cos (12.0 * t))
        ≤ (2:ℝ) ^ (-6.0 * t) * (2 + 12.0 * t) :=
      mul_le_mul_of_nonneg_left hS_le hA_pos.le
    have hlin : (2:ℝ) + 12.0 * t ≤ 2.1424 * (1 + 4.158 * t) := by nlinarith
    have h2 : (2:ℝ) ^ (-6.0 * t) * (2 + 12.0 * t)
        ≤ (2:ℝ) ^ (-6.0 * t) * (2.1424 * (1 + 4.158 * t)) :=
      mul_le_mul_of_nonneg_left hlin hA_pos.le
    nlinarith [hid, h1, h2, hmul]
  · rcases le_or_lt t (1/8) with hc8 | hc8
    · have hS := sin_add_two_cos_le (12.0 * t)
      have hA_le : (2:ℝ) ^ (-6.0 * t) ≤ 0.841 := rpow_decay_le_of_24th t hc.le
      nlinarith [hid, hA_pos.le, hA_le, hS.2,
        mul_nonneg hA_pos.le
          (by linarith [hS.2] : (0:ℝ) ≤ 2.2362 - (Real.sin (12.0 * t) + 2 * Real.cos (12.0 * t)))]
    · have hS := sin_add_two_cos_le (12.0 * t)
      have hA_le : (2:ℝ) ^ (-6.0 * t) ≤ 3/5 := rpow_decay_le_of_eighth t hc8.le
      nlinarith [hid, hA_pos.le, hA_le, hS.2,
        mul_nonneg hA_pos.le
          (by linarith [hS.2] : (0:ℝ) ≤ 2.2362 - (Real.sin (12.0 * t) + 2 * Real.cos (12.0 * t)))]

/-- The quantizer on a raw rotation in `(-2π, 0]` produces a displayed
angle in `(-2π, 0]` and a capture delta of one of the three invariant
shapes. -/
theorem captureInv_sensor_update (s : RCTMotionManagerState) (raw : ℝ)
    (h1 : -(2 * Real.pi) < raw) (h2 : raw ≤ 0) :
    (-(2 * Real.pi) < rotationWithLockState s raw ∧
      rotationWithLockState s raw ≤ 0) ∧
    (raw - rotationWithLockState s raw = 0 ∨
      (rotationWithLockState s raw = kMinLockAngle ∧
        0 < raw - rotationWithLockState s raw ∧
        raw - rotationWithLockState s raw ≤ midLockAngle - kMinLockAngle) ∨
      (rotationWithLockState s raw = kMaxLockAngle ∧
        midLockAngle - kMaxLockAngle < raw - rotationWithLockState s raw ∧
        raw - rotationWithLockState s raw < 0)) := by
  have hpi := Real.pi_gt_d2
  unfold rotationWithLockState
  split_ifs with hs hA hB
  · refine ⟨⟨by rw [kMinLockAngle]; nlinarith, by rw [kMinLockAngle]; norm_num⟩,
      Or.inr (Or.inl ⟨rfl, ?_, ?_⟩)⟩
    · linarith [hA.1]
    · linarith [hA.2]
  · refine ⟨⟨by rw [kMaxLockAngle]; nlinarith, by rw [kMaxLockAngle]; norm_num⟩,
      Or.inr (Or.inr ⟨rfl, ?_, ?_⟩)⟩
    · linarith [hB.1]
    · linarith [hB.2]
  · exact ⟨⟨h1, h2⟩, Or.inl (by ring)⟩
  · exact ⟨⟨h1, h2⟩, Or.inl (by ring)⟩

/-- The capture invariant holds right after start. -/
theorem captureInv_initState : CaptureInv initState :=
  ⟨⟨show -(2 * Real.pi) < 0 by nlinarith [Real.pi_pos], le_refl 0⟩, Or.inl rfl⟩

/-- Every event of the loop preserves the capture invariant: sensor ticks
rewrite the captured pair through the quantizer (whose raw input lies in
`(-2π, 0]`), and all other events leave the pair untouched. -/
theorem captureInv_step (st : MotionState) (e : MotionEvent)
    (hinv : CaptureInv st) : CaptureInv (step st e).state := by
  cases e with
  | sensorTick gx gy =>
    by_cases hact : st.sensorActive = true
    · by_cases hnot : st.lockState = .Unlocking
      · rw [show step st (.sensorTick gx gy) = ⟨st, none, none⟩ by
          simp only [step, hnot]
          split_ifs <;> rfl]
        exact hinv
      · by_cases hflat : isFlatWithGravity gx gy
        · rw [show step st (.sensorTick gx gy) = ⟨st, none, none⟩ by
            simp only [step]
            split_ifs <;> rfl]
          exact hinv
        · rw [step_sensorTick_eq st gx gy hact hnot hflat]
          have hr : -(2 * Real.pi) < rawRotationAfter st gx gy ∧
              rawRotationAfter st gx gy ≤ 0 := by
            unfold rawRotationAfter
            exact atan2_sub_pi_range _ _
          exact captureInv_sensor_update st.lockState (rawRotationAfter st gx gy)
            hr.1 hr.2
    · have hfalse : st.sensorActive = false := by
        cases hsa : st.sensorActive with
        | false => rfl
        | true => exact absurd hsa hact
      rw [show step st (.sensorTick gx gy) = ⟨st, none, none⟩ by
        simp [step, hfalse]]
      exact hinv
  | lock => exact hinv
  | unLock => exact hinv
  | animTick t =>
    simp only [step]
    split_ifs <;> exact hinv
  | stop => exact hinv

/-- The capture invariant holds along every run. -/
theorem captureInv_run (st : MotionState) (hinv : CaptureInv st)
    (evs : List MotionEvent) : CaptureInv (run st evs) := by
  induction evs generalizing st with
  | nil => exact hinv
  | cons e evs ih =>
    rw [run, List.foldl_cons]
    exact ih _ (captureInv_step st e hinv)

/-- The rotation of an animation sample from a state satisfying the capture
invariant lies in `(-2π, 0]` for every nonnegative elapsed time. -/
theorem animTick_rotation_range (st : MotionState) (t : ℝ)
    (hinv : CaptureInv st) (ht : 0 ≤ t) :
    -(2 * Real.pi) < st.initialRotationWhenUnlocking
        + st.rotationDeltaForUnlocking * springAnimationFactorWithTimeElapsed t ∧
    st.initialRotationWhenUnlocking
        + st.rotationDeltaForUnlocking * springAnimationFactorWithTimeElapsed t
      ≤ 0 := by
  obtain ⟨⟨hi1, hi2⟩, hd⟩ := hinv
  have hf1 := springFactor_upper t ht
  have hf2 := springFactor_lower t ht
  rcases hd with hd0 | ⟨hie, hd1, hd2⟩ | ⟨hie, hd1, hd2⟩
  · rw [hd0]
    constructor <;> nlinarith
  · have hmd : midLockAngle - kMinLockAngle = 2.9325 := by
      norm_num [midLockAngle, kMinLockAngle, kMaxLockAngle]
    rw [hmd] at hd2
    rw [hie]
    have hub : st.rotationDeltaForUnlocking * springAnimationFactorWithTimeElapsed t
        ≤ 2.9325 * 1.7 := by nlinarith
    have hlb : 2.9325 * (-(0.0712:ℝ))
        ≤ st.rotationDeltaForUnlocking * springAnimationFactorWithTimeElapsed t := by
      nlinarith
    constructor
    · rw [kMinLockAngle]
      nlinarith [Real.pi_gt_d4]
    · rw [kMinLockAngle]
      nlinarith
  · have hmd : midLockAngle - kMaxLockAngle = -2.9325 := by
      norm_num [midLockAngle, kMinLockAngle, kMaxLockAngle]
    rw [hmd] at hd1
    rw [hie]
    have hub : st.rotationDeltaForUnlocking * springAnimationFactorWithTimeElapsed t
        ≤ 2.9325 * 0.0712 := by nlinarith
    have hlb : -(2.9325 * 1.7)
        ≤ st.rotationDeltaForUnlocking * springAnimationFactorWithTimeElapsed t := by
      nlinarith
    constructor
    · rw [kMaxLockAngle]
      nlinarith [Real.pi_gt_three]
    · rw [kMaxLockAngle]
      nlinarith

/-- Every transform emitted by a sensor tick, from any state, has rotation
in `(-2π, 0]`. -/
theorem sensorTick_emit_range (st : MotionState) (gx gy r : ℝ)
    (h : (step st (.sensorTick gx gy)).emit = some r) :
    -(2 * Real.pi) < r ∧ r ≤ 0 := by
  by_cases hact : st.sensorActive = true
  · by_cases hnot : st.lockState = .Unlocking
    · rw [show step st (.sensorTick gx gy) = ⟨st, none, none⟩ by
        simp only [step, hnot]
        split_ifs <;> rfl] at h
      exact absurd h (by simp)
    · by_cases hflat : isFlatWithGravity gx gy
      · rw [show step st (.sensorTick gx gy) = ⟨st, none, none⟩ by
          simp only [step]
          split_ifs <;> rfl] at h
        exact absurd h (by simp)
      · rw [step_sensorTick_eq st gx gy hact hnot hflat] at h
        have hr : rotationWithLockState st.lockState (rawRotationAfter st gx gy)
            = r := by
          simpa using h
        obtain ⟨hA, hB⟩ := atan2_sub_pi_range
          (gx * decayFor gx + st.lastX * (1 - decayFor gx))
          (gy * decayFor gx + st.lastY * (1 - decayFor gx))
        rw [← hr]
        exact rotationWithLockState_range st.lockState _ hA hB
  · have hfalse : st.sensorActive = false := by
      cases hsa : st.sensorActive with
      | false => rfl
      | true => exact absurd hsa hact
    rw [show step st (.sensorTick gx gy) = ⟨st, none, none⟩ by
      simp [step, hfalse]] at h
    exact absurd h (by simp)

/-! ## Claim theorems -/

/-- C1: quantization of the displayed angle.  In state `Locked`, with
`mid = (minLockAngle + maxLockAngle) / 2`, a raw angle in `(min, mid]` is
displayed as `minLockAngle`, a raw angle in `(mid, max)` as `maxLockAngle`,
and a raw angle at or outside the band's endpoints passes through; in any
state other than `Locked` the raw angle is returned unchanged. -/
theorem C1_quantizer (s : RCTMotionManagerState) (r : ℝ) :
    (s = .Locked →
      ((kMinLockAngle < r ∧ r ≤ midLockAngle →
          rotationWithLockState s r = kMinLockAngle) ∧
       (midLockAngle < r ∧ r < kMaxLockAngle →
          rotationWithLockState s r = kMaxLockAngle) ∧
       (r ≤ kMinLockAngle ∨ kMaxLockAngle ≤ r →
          rotationWithLockState s r = r))) ∧
    (s ≠ .Locked → rotationWithLockState s r = r) := by
  constructor
  · rintro rfl
    refine ⟨?_, ?_, ?_⟩
    · rintro ⟨h1, h2⟩
      rw [rotationWithLockState, if_pos rfl, if_pos ⟨h1, h2⟩]
    · rintro ⟨h1, h2⟩
      rw [rotationWithLockState, if_pos rfl, if_neg, if_pos ⟨h1, h2⟩]
      rintro ⟨-, hle⟩
      exact absurd h1 (not_lt.mpr hle)
    · intro h
      have hmidmin : kMinLockAngle < midLockAngle := by
        norm_num [kMinLockAngle, kMaxLockAngle, midLockAngle]
      have hmidmax : midLockAngle < kMaxLockAngle := by
        norm_num [kMinLockAngle, kMaxLockAngle, midLockAngle]
      rw [rotationWithLockState, if_pos rfl]
      split_ifs with hA hB
      · exfalso
        rcases h with h | h
        · exact absurd hA.1 (not_lt.mpr h)
        · exact absurd hA.2 (not_le.mpr (hmidmax.trans_le h))
      · exfalso
        rcases h with h | h
        · exact absurd hB.1 (not_lt.mpr (h.trans hmidmin.le))
        · exact absurd hB.2 (not_lt.mpr h)
      · rfl
  · intro h
    rw [rotationWithLockState, if_neg h]

/-- C1 witness: the quantizer evaluated at the four concrete regimes. -/
theorem C1_quantizer_witness :
    rotationWithLockState .Locked (-5) = kMinLockAngle ∧
    rotationWithLockState .Locked (-1) = kMaxLockAngle ∧
    rotationWithLockState .Locked (-7) = -7 ∧
    rotationWithLockState .Free (-5) = -5 :=
  ⟨((C1_quantizer .Locked (-5)).1 rfl).1
      ⟨by norm_num [kMinLockAngle], by norm_num [kMinLockAngle, kMaxLockAngle, midLockAngle]⟩,
   ((C1_quantizer .Locked (-1)).1 rfl).2.1
      ⟨by norm_num [kMinLockAngle, kMaxLockAngle, midLockAngle], by norm_num [kMaxLockAngle]⟩,
   ((C1_quantizer .Locked (-7)).1 rfl).2.2
      (Or.inl (by norm_num [kMinLockAngle])),
   (C1_quantizer .Free (-5)).2 (by simp)⟩

/-- C2: smoother update law.  The smoother memory is initialized to the
`(-1, -1)` sentinel; the decay factor is `d = 0.15 + |x| * (1 - 0.15)`,
strictly increasing in `|x|` and exactly `0.15` at `x = 0`; and every
sensor tick that is delivered, is not in the unlock window, and passes the
flat guard updates each component as `s * d + smoothed * (1 - d)`. -/
theorem C2_smoother :
    initState.lastX = -1 ∧ initState.lastY = -1 ∧
    (∀ gx : ℝ, decayFor gx = 0.15 + |gx| * (1 - 0.15)) ∧
    decayFor 0 = 0.15 ∧
    (∀ gx1 gx2 : ℝ, |gx1| < |gx2| → decayFor gx1 < decayFor gx2) ∧
    (∀ (st : MotionState) (gx gy : ℝ), st.sensorActive = true →
      st.lockState ≠ .Unlocking → ¬ isFlatWithGravity gx gy →
      (step st (.sensorTick gx gy)).state.lastX
          = gx * decayFor gx + st.lastX * (1 - decayFor gx) ∧
      (step st (.sensorTick gx gy)).state.lastY
          = gy * decayFor gx + st.lastY * (1 - decayFor gx)) := by
  refine ⟨rfl, rfl, fun gx => rfl, by norm_num [decayFor, minDecay], ?_, ?_⟩
  · intro gx1 gx2 h
    have : |gx1| * (1 - minDecay) < |gx2| * (1 - minDecay) :=
      mul_lt_mul_of_pos_right h (by norm_num [minDecay])
    simpa [decayFor] using this
  · intro st gx gy h1 h2 h3
    simp [step, h1, h2, h3]

/-- C2 witness: the strict monotonicity and the update law at a concrete
state and sample. -/
theorem C2_smoother_witness :
    decayFor 0 < decayFor (1/2) ∧
    (step initState (.sensorTick (1/2) (1/2))).state.lastX
        = (1/2) * decayFor (1/2) + initState.lastX * (1 - decayFor (1/2)) :=
  ⟨C2_smoother.2.2.2.2.1 0 (1/2) (by norm_num [abs_pos]),
   (C2_smoother.2.2.2.2.2 initState (1/2) (1/2) rfl (by simp [initState])
      (by norm_num [isFlatWithGravity, abs_lt])).1⟩

/-- C5: flat guard.  A gravity sample with `|x| < 0.2` and `|y| < 0.2` is
discarded entirely: the state (in particular the smoother memory) is
unchanged, nothing is recorded to the diagnostics counter, and no transform
is emitted. -/
theorem C5_flat_guard (st : MotionState) (gx gy : ℝ)
    (h : isFlatWithGravity gx gy) :
    step st (.sensorTick gx gy) = ⟨st, none, none⟩ := by
  simp only [step]
  split_ifs <;> rfl

/-- C5 witness: a concrete flat sample at a concrete state. -/
theorem C5_flat_guard_witness :
    step initState (.sensorTick 0.1 0.1) = ⟨initState, none, none⟩ :=
  C5_flat_guard initState 0.1 0.1 (by norm_num [isFlatWithGravity, abs_lt])

/-- C6 counterexample: in state `Unlocking` the sensor handler returns
before the smoothing update (source lines 426-429), so a non-flat sample
`(1/2, 1/2)` leaves the smoother memory at `5` — whereas the claimed update
law would have produced `(1/2)·d + 5·(1-d) ≠ 5`. -/
theorem C6_counterexample :
    (step unlockingState (.sensorTick (1/2) (1/2))).state.lastX = 5 ∧
    (5 : ℝ) ≠ (1/2) * decayFor (1/2) + 5 * (1 - decayFor (1/2)) := by
  constructor
  · simp [step, unlockingState]
  · norm_num [decayFor, minDecay, abs_div, abs_one, abs_two]

/-- C6 amended: a sensor tick that arrives while the state is `Unlocking`
is dropped before any processing — the smoother memory and the captured
raw-angle data are left unchanged and no transform is emitted. -/
theorem C6_unlocking_ticks_dropped (st : MotionState) (gx gy : ℝ)
    (h : st.lockState = .Unlocking) :
    step st (.sensorTick gx gy) = ⟨st, none, none⟩ := by
  simp only [step, h]
  split_ifs <;> rfl

/-- C6 amended witness: a concrete non-flat sample during a concrete
unlocking state. -/
theorem C6_unlocking_ticks_dropped_witness :
    step unlockingState (.sensorTick (1/2) (1/2)) = ⟨unlockingState, none, none⟩ :=
  C6_unlocking_ticks_dropped unlockingState (1/2) (1/2) rfl

/-- C7 counterexample: after `stopDeviceMotionUpdates` during an unlock
animation, the animation tick source is still live and its next tick still
invokes the updates handler — a transform callback fires after `stop()`
returned. -/
theorem C7_counterexample :
    (step unlockingState .stop).state.samplerLive = true ∧
    ((step (step unlockingState .stop).state (.animTick (1/2))).emit).isSome
      = true := by
  constructor
  · rfl
  · norm_num [step, unlockingState]

/-- C7 amended: `stop()` halts sensor delivery synchronously — subsequent
sensor ticks are no-ops that emit nothing — but it does not release an
in-flight unlock animation's tick source: the sampler stays live, its ticks
keep invoking the handler, and only a tick with elapsed time above `1.0`
invalidates the source and frees the state. -/
theorem C7_stop_behavior (st : MotionState) :
    (step st .stop).state.sensorActive = false ∧
    (step st .stop).state.samplerLive = st.samplerLive ∧
    (∀ gx gy : ℝ, step (step st .stop).state (.sensorTick gx gy)
        = ⟨(step st .stop).state, none, none⟩) ∧
    (∀ timeElapsed : ℝ, st.samplerLive = true →
      ((step (step st .stop).state (.animTick timeElapsed)).emit).isSome
        = true) ∧
    (∀ timeElapsed : ℝ, st.samplerLive = true → timeElapsed > 1.0 →
      (step (step st .stop).state (.animTick timeElapsed)).state.samplerLive
          = false ∧
      (step (step st .stop).state (.animTick timeElapsed)).state.lockState
          = .Free) := by
  refine ⟨rfl, rfl, ?_, ?_, ?_⟩
  · intro gx gy
    simp only [step]
    split_ifs <;> rfl
  · intro t h
    simp only [step, h]
    rw [if_neg (show ¬(true = false) by simp)]
    split_ifs <;> rfl
  · intro t h ht
    simp only [step, h]
    rw [if_neg (show ¬(true = false) by simp), if_pos ht]
    exact ⟨rfl, rfl⟩

/-- C7 amended witness: the stop behavior at a concrete unlocking state,
with a concrete post-stop sensor tick and a concrete terminal animation
tick. -/
theorem C7_stop_behavior_witness :
    (step unlockingState .stop).state.sensorActive = false ∧
    step (step unlockingState .stop).state (.sensorTick (1/2) (1/2))
        = ⟨(step unlockingState .stop).state, none, none⟩ ∧
    ((step (step unlockingState .stop).state (.animTick 2)).emit).isSome
        = true ∧
    (step (step unlockingState .stop).state (.animTick 2)).state.samplerLive
        = false :=
  ⟨(C7_stop_behavior unlockingState).1,
   (C7_stop_behavior unlockingState).2.2.1 (1/2) (1/2),
   (C7_stop_behavior unlockingState).2.2.2.1 2 rfl,
   ((C7_stop_behavior unlockingState).2.2.2.2 2 rfl (by norm_num)).1⟩

/-- C9 counterexample: the transform builder performs no dimension
validation — with every dimension `0` it still completes and returns a
transform (here with a fit calculator that returns scale `1`), instead of
failing fast with a reported error (`none`). -/
theorem C9_counterexample :
    transformWithRotation (fun _ _ _ _ _ => 1) 0 0 0 0 0 ≠ none ∧
    transformWithRotation (fun _ _ _ _ _ => 1) 0 0 0 0 0 = some ⟨1, 1, 0⟩ := by
  constructor <;> simp [transformWithRotation]

/-- C9 amended: the transform builder never validates its dimensions — for
every fit calculator and all dimensions (including zero and negative ones)
it unconditionally returns a transform whose uniform scale is whatever the
external calculator produced and whose rotation is the requested one. -/
theorem C9_no_dimension_validation (get_scale : ℝ → ℝ → ℝ → ℝ → ℝ → ℝ)
    (viewWidth viewHeight videoWidth videoHeight rotation : ℝ) :
    (transformWithRotation get_scale
        viewWidth viewHeight videoWidth videoHeight rotation).isSome = true ∧
    transformWithRotation get_scale
        viewWidth viewHeight videoWidth videoHeight rotation =
      some ⟨get_scale viewWidth viewHeight videoWidth videoHeight rotation,
            get_scale viewWidth viewHeight videoWidth videoHeight rotation,
            rotation⟩ :=
  ⟨rfl, rfl⟩

/-- C10: a `lock()` issued while the state is `Unlocking` takes effect
immediately (state becomes `Locked`, it is not ignored), the running
animation sampler stays live, and the first animation tick with elapsed
time above `1.0` unconditionally resets the state to `Free` — silently
discarding the lock acquired during the unlock window. -/
theorem C10_lock_during_unlock (st : MotionState)
    (h1 : st.lockState = .Unlocking) (h2 : st.samplerLive = true) :
    (step st .lock).state.lockState = .Locked ∧
    (step st .lock).state.samplerLive = true ∧
    (∀ timeElapsed : ℝ, timeElapsed > 1.0 →
      (step (step st .lock).state (.animTick timeElapsed)).state.lockState
          = .Free ∧
      (step (step st .lock).state (.animTick timeElapsed)).state.samplerLive
          = false) := by
  refine ⟨rfl, h2, ?_⟩
  intro t ht
  simp only [step, h2]
  rw [if_neg (show ¬(true = false) by simp), if_pos ht]
  exact ⟨rfl, rfl⟩

/-- C10 witness: lock during a concrete unlock window, then a terminal
animation tick. -/
theorem C10_lock_during_unlock_witness :
    (step unlockingState .lock).state.lockState = .Locked ∧
    (step (step unlockingState .lock).state (.animTick 2)).state.lockState
        = .Free :=
  ⟨(C10_lock_during_unlock unlockingState rfl rfl).1,
   ((C10_lock_during_unlock unlockingState rfl rfl).2.2 2 (by norm_num)).1⟩

/-- C4: the spring easing satisfies `f(0) = 0` exactly, and for every
`t ∈ [0.3, 1.0]` the factor stays within `3/4` of `1` (the residual
oscillation `2^(-6t)·(sin 12t + 2 cos 12t)/2` is bounded by
`(3/2)·2^(-1.8) < 3/4`). -/
theorem C4_spring_easing :
    springAnimationFactorWithTimeElapsed 0 = 0 ∧
    (∀ t : ℝ, 0.3 ≤ t → t ≤ 1.0 →
      |springAnimationFactorWithTimeElapsed t - 1| ≤ 3/4) := by
  constructor
  · simp only [springAnimationFactorWithTimeElapsed]
    norm_num [Real.rpow_zero, Real.sin_zero, Real.cos_zero]
  · intro t h03 h1
    have h2pos : (0:ℝ) < 2 := by norm_num
    have hmul : (2:ℝ) ^ (-6.0 * t) * (2:ℝ) ^ (6.0 * t) = 1 := by
      rw [← Real.rpow_add h2pos]
      norm_num
    have hid : springAnimationFactorWithTimeElapsed t
        = 1 - (2:ℝ) ^ (-6.0 * t)
            * (Real.sin (12.0 * t) + 2.0 * Real.cos (12.0 * t)) / 2 := by
      simp only [springAnimationFactorWithTimeElapsed]
      linear_combination hmul
    have hA_pos : (0:ℝ) < (2:ℝ) ^ (-6.0 * t) := Real.rpow_pos_of_pos h2pos _
    have hA_le : (2:ℝ) ^ (-6.0 * t) ≤ 1/2 := by
      have hle : (2:ℝ) ^ (-6.0 * t) ≤ (2:ℝ) ^ (-1 : ℝ) :=
        Real.rpow_le_rpow_of_exponent_le (by norm_num) (by nlinarith)
      rw [Real.rpow_neg_one] at hle
      calc (2:ℝ) ^ (-6.0 * t) ≤ (2:ℝ)⁻¹ := hle
        _ = 1/2 := by norm_num
    have hS : |Real.sin (12.0 * t) + 2.0 * Real.cos (12.0 * t)| ≤ 3 := by
      calc |Real.sin (12.0 * t) + 2.0 * Real.cos (12.0 * t)|
          ≤ |Real.sin (12.0 * t)| + |2.0 * Real.cos (12.0 * t)| := abs_add _ _
        _ ≤ 1 + 2 * 1 := by
            refine add_le_add (abs_le.mpr ⟨Real.neg_one_le_sin _, Real.sin_le_one _⟩) ?_
            rw [abs_mul]
            have h2 : |(2.0 : ℝ)| = 2 := by norm_num
            rw [h2]
            exact mul_le_mul_of_nonneg_left
              (abs_le.mpr ⟨Real.neg_one_le_cos _, Real.cos_le_one _⟩) (by norm_num)
        _ = 3 := by norm_num
    rw [hid]
    have hrw : (1 : ℝ) - (2:ℝ) ^ (-6.0 * t)
          * (Real.sin (12.0 * t) + 2.0 * Real.cos (12.0 * t)) / 2 - 1
        = -((2:ℝ) ^ (-6.0 * t)
          * (Real.sin (12.0 * t) + 2.0 * Real.cos (12.0 * t)) / 2) := by ring
    rw [hrw, abs_neg, abs_div, abs_mul, abs_of_pos hA_pos, abs_two]
    have hmain : (2:ℝ) ^ (-6.0 * t)
        * |Real.sin (12.0 * t) + 2.0 * Real.cos (12.0 * t)| ≤ 3/2 := by
      calc (2:ℝ) ^ (-6.0 * t)
            * |Real.sin (12.0 * t) + 2.0 * Real.cos (12.0 * t)|
          ≤ (1/2) * 3 := mul_le_mul hA_le hS (abs_nonneg _) (by norm_num)
        _ = 3/2 := by norm_num
    linarith

/-- C4 witness: the easing at `t = 0` and the bound at the concrete point
`t = 1/2` of `[0.3, 1.0]`. -/
theorem C4_spring_easing_witness :
    springAnimationFactorWithTimeElapsed 0 = 0 ∧
    |springAnimationFactorWithTimeElapsed (1/2) - 1| ≤ 3/4 :=
  ⟨C4_spring_easing.1, C4_spring_easing.2 (1/2) (by norm_num) (by norm_num)⟩

/-- C3: unlock capture and automatic release.  After a processed sensor tick,
`unLock` moves the state to `Unlocking` with a live animation sampler; the
captured `initialRotationWhenUnlocking` is exactly the displayed angle that
tick emitted (the last displayed angle before the call) and
`rotationDeltaForUnlocking` is the tick's raw angle minus that initial
angle; both stay fixed during the unlock window (sensor ticks and
non-terminal animation ticks leave the state untouched); and an animation
tick with elapsed time above `1.0` sets the state to `Free` and invalidates
the animation tick source. -/
theorem C3_unlock_capture (st : MotionState) (gx gy : ℝ)
    (hact : st.sensorActive = true) (hnot : st.lockState ≠ .Unlocking)
    (hflat : ¬ isFlatWithGravity gx gy) :
    (step (step st (.sensorTick gx gy)).state .unLock).state.lockState
        = .Unlocking ∧
    (step (step st (.sensorTick gx gy)).state .unLock).state.samplerLive
        = true ∧
    (step (step st (.sensorTick gx gy)).state .unLock).state.initialRotationWhenUnlocking
        = rotationWithLockState st.lockState (rawRotationAfter st gx gy) ∧
    (step st (.sensorTick gx gy)).emit
        = some ((step (step st (.sensorTick gx gy)).state .unLock).state.initialRotationWhenUnlocking) ∧
    (step (step st (.sensorTick gx gy)).state .unLock).state.rotationDeltaForUnlocking
        = rawRotationAfter st gx gy
          - (step (step st (.sensorTick gx gy)).state .unLock).state.initialRotationWhenUnlocking ∧
    (∀ gx2 gy2 : ℝ,
      (step (step (step st (.sensorTick gx gy)).state .unLock).state
          (.sensorTick gx2 gy2)).state
        = (step (step st (.sensorTick gx gy)).state .unLock).state) ∧
    (∀ timeElapsed : ℝ, timeElapsed ≤ 1.0 →
      (step (step (step st (.sensorTick gx gy)).state .unLock).state
          (.animTick timeElapsed)).state
        = (step (step st (.sensorTick gx gy)).state .unLock).state) ∧
    (∀ timeElapsed : ℝ, timeElapsed > 1.0 →
      (step (step (step st (.sensorTick gx gy)).state .unLock).state
          (.animTick timeElapsed)).state.lockState = .Free ∧
      (step (step (step st (.sensorTick gx gy)).state .unLock).state
          (.animTick timeElapsed)).state.samplerLive = false) := by
  rw [step_sensorTick_eq st gx gy hact hnot hflat]
  refine ⟨rfl, rfl, rfl, rfl, rfl, ?_, ?_, ?_⟩
  · intro gx2 gy2
    simp only [step]
    split_ifs <;> rfl
  · intro t ht
    simp only [step]
    rw [if_neg (show ¬(true = false) by simp), if_neg (not_lt.mpr ht)]
  · intro t ht
    simp only [step]
    rw [if_neg (show ¬(true = false) by simp), if_pos ht]
    exact ⟨rfl, rfl⟩

/-- C3 witness: capture and release on a concrete run: the initial state,
a concrete non-flat sample, `unLock`, then a non-terminal and a terminal
animation tick. -/
theorem C3_unlock_capture_witness :
    (step (step initState (.sensorTick (1/2) (1/2))).state .unLock).state.lockState
        = .Unlocking ∧
    (step (step initState (.sensorTick (1/2) (1/2))).state .unLock).state.initialRotationWhenUnlocking
        = rotationWithLockState initState.lockState (rawRotationAfter initState (1/2) (1/2)) ∧
    (∀ timeElapsed : ℝ, timeElapsed > 1.0 →
      (step (step (step initState (.sensorTick (1/2) (1/2))).state .unLock).state
          (.animTick timeElapsed)).state.lockState = .Free) := by
  have h := C3_unlock_capture initState (1/2) (1/2) rfl (by simp [initState])
    (by norm_num [isFlatWithGravity, abs_lt])
  exact ⟨h.1, h.2.2.1, fun t ht => (h.2.2.2.2.2.2.2 t ht).1⟩

/-- C8 counterexample: a reachable emitted rotation outside `(-π, π]`.
From the initial state, `lock` followed by the non-flat gravity sample
`(-1/2, 1)` smooths the sentinel to `(lastX, lastY) = (-0.7125, 0.15)`,
whose raw rotation `atan2(-0.7125, 0.15) - π` lies in `[-3π/2, -π]`, inside
the lower lock band — so the handler is invoked with the snapped rotation
`kMinLockAngle = -6.074`, which is smaller than `-π`. -/
theorem C8_counterexample :
    (step (step initState .lock).state (.sensorTick (-(1/2)) 1)).emit
        = some kMinLockAngle ∧
    ¬(-Real.pi < kMinLockAngle ∧ kMinLockAngle ≤ Real.pi) := by
  constructor
  · have hstL : (step initState .lock).state
        = { initState with lockState := .Locked } := rfl
    rw [hstL, step_sensorTick_eq { initState with lockState := .Locked } (-(1/2)) 1
      rfl (by simp) (by norm_num [isFlatWithGravity, abs_lt])]
    have hraw : rawRotationAfter { initState with lockState := .Locked } (-(1/2)) 1
        = atan2 (-0.7125) 0.15 - Real.pi := by
      rw [rawRotationAfter]
      norm_num [decayFor, minDecay, initState, abs_div, abs_neg, abs_one, abs_two]
    have harg : Complex.arg ⟨0.15, -0.7125⟩
        = Real.arcsin ((⟨0.15, -0.7125⟩ : ℂ).im / Complex.abs ⟨0.15, -0.7125⟩) :=
      Complex.arg_of_re_nonneg (by exact (by norm_num : (0:ℝ) ≤ 0.15))
    have hA_le : Real.arcsin ((⟨0.15, -0.7125⟩ : ℂ).im / Complex.abs ⟨0.15, -0.7125⟩) ≤ 0 :=
      Real.arcsin_nonpos.mpr
        (div_nonpos_iff.mpr (Or.inr ⟨by exact (by norm_num : (-0.7125:ℝ) ≤ 0),
          Complex.abs.nonneg _⟩))
    have hA_ge : -(Real.pi / 2) ≤
        Real.arcsin ((⟨0.15, -0.7125⟩ : ℂ).im / Complex.abs ⟨0.15, -0.7125⟩) :=
      Real.neg_pi_div_two_le_arcsin _
    have hkey : atan2 (-0.7125) 0.15
        = Real.arcsin ((⟨0.15, -0.7125⟩ : ℂ).im / Complex.abs ⟨0.15, -0.7125⟩) := by
      rw [atan2]
      exact harg
    have hbounds : kMinLockAngle < rawRotationAfter
          { initState with lockState := .Locked } (-(1/2)) 1 ∧
        rawRotationAfter { initState with lockState := .Locked } (-(1/2)) 1
          ≤ midLockAngle := by
      rw [hraw, hkey]
      constructor
      · rw [kMinLockAngle]
        nlinarith [Real.pi_lt_four]
      · rw [midLockAngle, kMinLockAngle, kMaxLockAngle]
        nlinarith [Real.pi_gt_d4]
    show some (rotationWithLockState
      ({ initState with lockState := .Locked } : MotionState).lockState
      (rawRotationAfter { initState with lockState := .Locked } (-(1/2)) 1))
        = some kMinLockAngle
    rw [show ({ initState with lockState := .Locked } : MotionState).lockState
        = .Locked from rfl, rotationWithLockState, if_pos rfl, if_pos hbounds]
  · rintro ⟨hc, -⟩
    rw [kMinLockAngle] at hc
    nlinarith [Real.pi_lt_four]


/-- C8 amended: every emitted AffineTransform has a rotation that is finite
and lies in `(-2π, 0]` (rather than `(-π, π]`), for all reachable states —
whether the angle comes from the raw formula `atan2(lastX, lastY) - π`
(whose argument lies in `(-π, π]`), from snapping to a lock constant
(`-6.074` and `-0.209` both lie in `(-2π, 0]`), or from the unlock
animation at any nonnegative elapsed time (the captured pair satisfies the
capture invariant and the spring factor stays within `[-0.0712, 1.7]`). -/
theorem C8_emitted_rotation_range (evs : List MotionEvent) (e : MotionEvent)
    (r : ℝ) (ht : ∀ t : ℝ, e = .animTick t → 0 ≤ t)
    (h : (step (run initState evs) e).emit = some r) :
    -(2 * Real.pi) < r ∧ r ≤ 0 := by
  have hinv : CaptureInv (run initState evs) :=
    captureInv_run initState captureInv_initState evs
  set st := run initState evs with hst
  cases e with
  | sensorTick gx gy => exact sensorTick_emit_range st gx gy r h
  | lock => exact absurd h (by simp [step])
  | unLock => exact absurd h (by simp [step])
  | stop => exact absurd h (by simp [step])
  | animTick t =>
    have ht0 : 0 ≤ t := ht t rfl
    by_cases hs : st.samplerLive = false
    · rw [show step st (.animTick t) = ⟨st, none, none⟩ by simp [step, hs]] at h
      exact absurd h (by simp)
    · have hr : some (st.initialRotationWhenUnlocking
          + st.rotationDeltaForUnlocking * springAnimationFactorWithTimeElapsed t)
            = some r := by
        rw [← h]
        simp only [step]
        rw [if_neg hs]
        split_ifs <;> rfl
      rw [Option.some_inj] at hr
      rw [← hr]
      exact animTick_rotation_range st t hinv ht0

/-- C8 amended witness: concrete emissions on both paths lie in `(-2π, 0]` —
an animation tick at elapsed time `1/2` right after `unLock` from the
initial state, and the first non-flat sensor tick in the `Free` state. -/
theorem C8_emitted_rotation_range_witness :
    (step (run initState [MotionEvent.unLock]) (.animTick (1/2))).emit
        = some (initState.initialRotationWhenUnlocking
            + initState.rotationDeltaForUnlocking
              * springAnimationFactorWithTimeElapsed (1/2)) ∧
    (-(2 * Real.pi) < initState.initialRotationWhenUnlocking
        + initState.rotationDeltaForUnlocking
          * springAnimationFactorWithTimeElapsed (1/2) ∧
      initState.initialRotationWhenUnlocking
        + initState.rotationDeltaForUnlocking
          * springAnimationFactorWithTimeElapsed (1/2) ≤ 0) ∧
    (step (run initState []) (.sensorTick (1/2) (1/2))).emit
        = some (rotationWithLockState initState.lockState
            (rawRotationAfter initState (1/2) (1/2))) ∧
    (-(2 * Real.pi) < rotationWithLockState initState.lockState
        (rawRotationAfter initState (1/2) (1/2)) ∧
      rotationWithLockState initState.lockState
        (rawRotationAfter initState (1/2) (1/2)) ≤ 0) := by
  have hemitA : (step (run initState [MotionEvent.unLock]) (.animTick (1/2))).emit
      = some (initState.initialRotationWhenUnlocking
          + initState.rotationDeltaForUnlocking
            * springAnimationFactorWithTimeElapsed (1/2)) := by
    rw [show run initState [MotionEvent.unLock]
        = { initState with lockState := .Unlocking, samplerLive := true } from rfl]
    simp only [step]
    rw [if_neg (show ¬(true = false) by simp),
      if_neg (by norm_num : ¬((1/2 : ℝ) > 1.0))]
  have hemitS : (step (run initState []) (.sensorTick (1/2) (1/2))).emit
      = some (rotationWithLockState initState.lockState
          (rawRotationAfter initState (1/2) (1/2))) := by
    rw [show run initState [] = initState from rfl,
      step_sensorTick_eq initState (1/2) (1/2) rfl (by simp [initState])
        (by norm_num [isFlatWithGravity, abs_lt])]
  refine ⟨hemitA,
    C8_emitted_rotation_range [MotionEvent.unLock] (.animTick (1/2)) _
      (fun t htt => ?_) hemitA,
    hemitS,
    C8_emitted_rotation_range [] (.sensorTick (1/2) (1/2)) _
      (fun t htt => absurd htt (by simp)) hemitS⟩
  injection htt with h12
  rw [← h12]
  norm_num
